import Mathlib

set_option maxRecDepth 100000

/-!
Shallow embedding of the SkyBank transaction-aggregation core
(src/services.py, src/utils.py, src/reports.py) and proofs of the
spec claims about it.

Modelling conventions:
* A pandas DataFrame is a list of rows together with the list of column
  names actually present (`Df`).  Rows always carry all six fields of the
  transaction record; an operation may only read a field after it has
  checked (or pandas would have checked) that the corresponding column
  name is present, so values of absent columns are never consulted.
* Python / numpy floats are idealized as exact rationals (`ℚ`).
* A parsed datetime value is a calendar record `DT`; comparisons and
  timedelta arithmetic go through `toSecs`, the proleptic-Gregorian
  second count, exactly as Python datetime arithmetic does.  The
  nanosecond-epoch range limits of pandas timestamps (years outside
  1677–2262) are outside the model.
* `datetime.strptime` / `pd.to_datetime(..., format=...)` are embedded by
  direct parsers for each format string used in the source, following
  CPython `_strptime` semantics: numeric fields match one or two digits
  (four for the year), literal separators match exactly, whitespace in
  the format matches one or more whitespace characters, the whole string
  must be consumed, and the resulting calendar date must be valid.
-/

namespace SkyBank

/-- Parsed calendar date-time (what `datetime.strptime` returns). -/
structure DT where
  year : Nat
  month : Nat
  day : Nat
  hour : Nat
  minute : Nat
  second : Nat
deriving DecidableEq, Repr

/-- Gregorian leap-year test, as in Python `calendar.isleap`. -/
def isLeap (y : Nat) : Bool :=
  (y % 4 == 0 && y % 100 != 0) || y % 400 == 0

/-- Number of days in a month of a given year. -/
def daysInMonth (y m : Nat) : Nat :=
  if m == 2 then (if isLeap y then 29 else 28)
  else if m == 4 || m == 6 || m == 9 || m == 11 then 30
  else 31

/-- Days in the months strictly before month `m` of a non-leap year. -/
def cumDays (m : Nat) : Nat :=
  match m with
  | 1 => 0
  | 2 => 31
  | 3 => 59
  | 4 => 90
  | 5 => 120
  | 6 => 151
  | 7 => 181
  | 8 => 212
  | 9 => 243
  | 10 => 273
  | 11 => 304
  | _ => 334

/-- Leap years among years `1 .. n`. -/
def leapsUpTo (n : Nat) : Nat :=
  n / 4 - n / 100 + n / 400

/-- Day number of a date counted from 0001-01-01 (Python
`date.toordinal` minus one). -/
def toOrdinal (dt : DT) : Nat :=
  365 * (dt.year - 1) + leapsUpTo (dt.year - 1) + cumDays dt.month
    + (if 2 < dt.month && isLeap dt.year then 1 else 0) + (dt.day - 1)

/-- Absolute second count of a date-time; Python naive datetime
comparison and timedelta arithmetic coincide with `Int` arithmetic on
this value. -/
def toSecs (dt : DT) : Int :=
  (toOrdinal dt : Int) * 86400 + dt.hour * 3600 + dt.minute * 60 + dt.second

/-- Numeric value of a decimal digit character. -/
def digVal (c : Char) : Nat := c.toNat - 48

/-- Reads a one- or two-digit numeric strptime field.  Two digits are
consumed when their value is admissible for the directive (at most `hi`,
and nonzero unless `zeroOk`); otherwise a single admissible digit is
consumed, mirroring the regex alternations of CPython `_strptime`. -/
def readField (hi : Nat) (zeroOk : Bool) : List Char → Option (Nat × List Char)
  | [] => none
  | c1 :: rest1 =>
    if c1.isDigit then
      match rest1 with
      | c2 :: rest2 =>
        if c2.isDigit then
          let v := digVal c1 * 10 + digVal c2
          if v ≤ hi && (zeroOk || v != 0) then some (v, rest2)
          else if zeroOk || digVal c1 != 0 then some (digVal c1, rest1) else none
        else if zeroOk || digVal c1 != 0 then some (digVal c1, rest1) else none
      | [] => if zeroOk || digVal c1 != 0 then some (digVal c1, rest1) else none
    else none

/-- Reads the four-digit `%Y` field. -/
def readYear : List Char → Option (Nat × List Char)
  | a :: b :: c :: d :: rest =>
    if a.isDigit && b.isDigit && c.isDigit && d.isDigit then
      some (digVal a * 1000 + digVal b * 100 + digVal c * 10 + digVal d, rest)
    else none
  | _ => none

/-- Matches one literal character of the format. -/
def readLit (ch : Char) : List Char → Option (List Char)
  | [] => none
  | c :: rest => if c == ch then some rest else none

/-- Matches one or more whitespace characters (a space in a strptime
format matches any nonempty whitespace run). -/
def readWs : List Char → Option (List Char)
  | [] => none
  | c :: rest =>
    if c.isWhitespace then
      some (rest.dropWhile Char.isWhitespace)
    else none

/-- Final validation performed by the `datetime` constructor: the day
must exist in the month and the year must be at least 1.  Field ranges
for month, hour, minute and second are already enforced by the readers. -/
def mkDT (y m d hh mi ss : Nat) : Option DT :=
  if 1 ≤ y && 1 ≤ d && d ≤ daysInMonth y m then
    some ⟨y, m, d, hh, mi, ss⟩
  else none

/-- Embeds `datetime.strptime(s, "%Y-%m-%d %H:%M:%S")`. -/
def parseYmdHms (s : String) : Option DT := do
  let (y, r1) ← readYear s.data
  let r2 ← readLit '-' r1
  let (m, r3) ← readField 12 false r2
  let r4 ← readLit '-' r3
  let (d, r5) ← readField 31 false r4
  let r6 ← readWs r5
  let (hh, r7) ← readField 23 true r6
  let r8 ← readLit ':' r7
  let (mi, r9) ← readField 59 true r8
  let r10 ← readLit ':' r9
  let (ss, r11) ← readField 59 true r10
  if r11.isEmpty then mkDT y m d hh mi ss else none

/-- Embeds `datetime.strptime(s, "%Y-%m-%d")`. -/
def parseYmd (s : String) : Option DT := do
  let (y, r1) ← readYear s.data
  let r2 ← readLit '-' r1
  let (m, r3) ← readField 12 false r2
  let r4 ← readLit '-' r3
  let (d, r5) ← readField 31 false r4
  if r5.isEmpty then mkDT y m d 0 0 0 else none

/-- Embeds parsing one value with format `"%d.%m.%Y %H:%M:%S"` (the
strict layout used by `pd.to_datetime` in the as-of filter and the
top-5 ranker). -/
def parseDmyHms (s : String) : Option DT := do
  let (d, r1) ← readField 31 false s.data
  let r2 ← readLit '.' r1
  let (m, r3) ← readField 12 false r2
  let r4 ← readLit '.' r3
  let (y, r5) ← readYear r4
  let r6 ← readWs r5
  let (hh, r7) ← readField 23 true r6
  let r8 ← readLit ':' r7
  let (mi, r9) ← readField 59 true r8
  let r10 ← readLit ':' r9
  let (ss, r11) ← readField 59 true r10
  if r11.isEmpty then mkDT y m d hh mi ss else none

/-- Embeds parsing one value with format `"%d.%m.%Y"`. -/
def parseDmy (s : String) : Option DT := do
  let (d, r1) ← readField 31 false s.data
  let r2 ← readLit '.' r1
  let (m, r3) ← readField 12 false r2
  let r4 ← readLit '.' r3
  let (y, r5) ← readYear r4
  if r5.isEmpty then mkDT y m d 0 0 0 else none

/-- Embeds `pd.to_datetime(value, format="mixed", dayfirst=True)` for the
textual date layouts occurring in this repository: day-first dotted
layouts with and without a time part, and the ISO layouts as fallback. -/
def parseMixedDayfirst (s : String) : Option DT :=
  (parseDmyHms s).orElse fun _ =>
    (parseDmy s).orElse fun _ =>
      (parseYmdHms s).orElse fun _ => parseYmd s

/-- Left-pads the decimal form of `n` with zeros to width `w`. -/
def padNum (w n : Nat) : String :=
  let s := toString n
  String.mk (List.replicate (w - s.length) '0') ++ s

/-- Embeds `Timestamp.strftime("%d.%m.%Y")`. -/
def fmtDmy (dt : DT) : String :=
  padNum 2 dt.day ++ "." ++ padNum 2 dt.month ++ "." ++ padNum 4 dt.year

end SkyBank

namespace SkyBank

/-- Value held in the operation-timestamp column of one row: raw text,
a parsed datetime, or the missing marker NaT. -/
inductive TsCell where
  | txt (s : String)
  | time (v : DT)
  | nan
deriving DecidableEq, Repr

/-- One transaction record (the six fields the core reads).  Column
names in the source are the Russian strings listed in `Df.cols`; an
operation consults a field only after the corresponding column name has
been checked present. -/
structure Row where
  operation_timestamp : TsCell
  amount_of_operation : ℚ
  amount_of_payment : ℚ
  category : String
  description : String
  card_number : String
deriving DecidableEq, Repr

/-- A DataFrame: the set of column names present, and the rows. -/
structure Df where
  cols : List String
  rows : List Row
deriving DecidableEq, Repr

/-- Failure outcomes of the core operations (§7 of the spec):
`invalidDateFormat` and `missingColumns` are the typed ValueErrors the
source raises itself; `keyError` is the untyped KeyError pandas raises
on access to an absent column; `parseError` is the error raised by the
lenient timestamp parse, which does not coerce failures. -/
inductive Err where
  | invalidDateFormat
  | missingColumns
  | keyError
  | parseError
deriving DecidableEq, Repr

/-- Embeds `pd.to_datetime(cell, format="%d.%m.%Y %H:%M:%S",
errors="coerce")` on one cell: text parses or coerces to NaT, already
parsed values pass through, NaT stays NaT. -/
def coerceDmyHms (c : TsCell) : TsCell :=
  match c with
  | .txt s =>
    match parseDmyHms s with
    | some dt => .time dt
    | none => .nan
  | .time v => .time v
  | .nan => .nan

/-- Replaces the operation-timestamp of a row by its strict coerced
parse (the column assignment in the as-of filter and top-5 ranker). -/
def normStrict (r : Row) : Row :=
  { r with operation_timestamp := coerceDmyHms r.operation_timestamp }

/-- Comparison mask `lo <= ts AND ts <= hi` on one cell; comparisons
against the missing marker are false, so NaT rows are dropped. -/
def tsBetween (c : TsCell) (lo hi : Int) : Bool :=
  match c with
  | .time v => lo ≤ toSecs v && toSecs v ≤ hi
  | _ => false

/-- Embeds `filter_transactions_by_date` (src/services.py:40,
src/utils.py:77): parses the reference with `%Y-%m-%d %H:%M:%S`, takes
the inclusive window of one day ending at the reference, copies the
dataset, coerce-parses the timestamp column on the copy and keeps the
rows inside the window. -/
def filter_transactions_by_date (transactions : Df) (date_time_str : String) :
    Except Err Df :=
  match parseYmdHms date_time_str with
  | none => .error .invalidDateFormat
  | some end_date =>
    let startS : Int := toSecs end_date - 86400
    let endS : Int := toSecs end_date
    if "Дата операции" ∈ transactions.cols then
      let copied := transactions.rows.map normStrict
      .ok ⟨transactions.cols,
        copied.filter fun r => tsBetween r.operation_timestamp startS endS⟩
    else .error .keyError

/-- One entry of the card summary returned by the aggregator. -/
structure CardInfo where
  last_digits : String
  total_spent : ℚ
  cashback : ℚ
deriving DecidableEq, Repr

/-- Last four characters of the card identifier string (`str[-4:]`);
shorter strings are used whole. -/
def lastDigits (s : String) : String :=
  String.mk (s.data.drop (s.data.length - 4))

/-- Distinct values of a list in first-appearance order, skipping
values already seen. -/
def firstAppearanceAux (seen : List String) : List String → List String
  | [] => []
  | x :: xs =>
    if x ∈ seen then firstAppearanceAux seen xs
    else x :: firstAppearanceAux (x :: seen) xs

/-- Distinct values of a list in first-appearance order. -/
def firstAppearance (l : List String) : List String :=
  firstAppearanceAux [] l

/-- Group keys produced by `transactions.groupby("Номер карты")`: the
distinct card numbers sorted ascending (pandas groupby defaults to
`sort=True`, so keys come out in sorted order, not first-appearance
order). -/
def groupbyKeys (transactions : Df) : List String :=
  List.insertionSort (fun a b => a ≤ b)
    (firstAppearance (transactions.rows.map Row.card_number))

/-- The aggregation row built for one card: pandas sum of the group for
`total_spent`, Python `sum(x) * 0.01` for `cashback` (both are the exact
rational sum in the model), and the last four characters of the card. -/
def cardGroup (transactions : Df) (k : String) : CardInfo :=
  { last_digits := lastDigits k
    total_spent :=
      (((transactions.rows.filter fun r => r.card_number == k).map
        Row.amount_of_operation).sum)
    cashback :=
      (((transactions.rows.filter fun r => r.card_number == k).map
        Row.amount_of_operation).sum) * (1 / 100) }

/-- Embeds `calculate_card_info` (src/services.py:74, src/utils.py:111):
checks the two required columns, groups by card number and aggregates
spend and cashback per group. -/
def calculate_card_info (transactions : Df) : Except Err (List CardInfo) :=
  if "Номер карты" ∈ transactions.cols ∧ "Сумма операции" ∈ transactions.cols then
    .ok ((groupbyKeys transactions).map (cardGroup transactions))
  else .error .missingColumns

/-- Embeds `DataFrame.sort_values(by=key, ascending=False)`.  For a
single key pandas `nargsort` reverses the values, takes a numpy
ascending argsort with the default `kind="quicksort"` and reverses
again.  The argsort is modelled here as a stable ascending sort.  That
model is EXACT only for arrays of at most 16 elements, where numpy
introsort runs a plain — and stable — insertion sort; on longer arrays
the real quicksort leaves the relative order of equal keys unspecified
(pandas documents only the mergesort/stable kinds as stable).  The
stability theorem about the ranker is therefore stated only within the
exact regime, and the missing stability guarantee beyond it is reported
as a bug of the code against the spec's demanded stable tie-break. -/
def sort_values_desc {α : Type} (key : α → ℚ) (l : List α) : List α :=
  (List.insertionSort (fun a b => key a ≤ key b) l.reverse).reverse

/-- One output record of the top-5 ranker; `date` is `none` where the
timestamp coerced to NaT and `strftime` therefore yielded a missing
value. -/
structure TopTxn where
  date : Option String
  amount : ℚ
  category : String
  description : String
deriving DecidableEq, Repr

/-- Renders the timestamp cell of a selected row with
`.dt.strftime("%d.%m.%Y")`. -/
def fmtCell (c : TsCell) : Option String :=
  match c with
  | .time v => some (fmtDmy v)
  | _ => none

/-- Output shaping of one selected row: select the four columns, render
the date and rename to `date`, `amount`, `category`, `description`. -/
def toTopTxn (r : Row) : TopTxn :=
  { date := fmtCell r.operation_timestamp
    amount := r.amount_of_payment
    category := r.category
    description := r.description }

/-- Rows of the ranker after its in-place coerce-parse of the timestamp
column. -/
def normTop5 (transactions : Df) : List Row :=
  transactions.rows.map normStrict

/-- Embeds `get_top_5_transactions` (src/services.py:110,
src/utils.py:147): checks the timestamp and payment columns, coerce-
parses the timestamp column, sorts descending by payment amount, takes
the first five rows and reshapes them; the output-shaping step selects
the category and description columns unconditionally, so their absence
surfaces as an untyped KeyError after the precondition check passed. -/
def get_top_5_transactions (transactions : Df) : Except Err (List TopTxn) :=
  if "Дата операции" ∈ transactions.cols ∧ "Сумма платежа" ∈ transactions.cols then
    let sorted :=
      sort_values_desc (fun r => r.amount_of_payment) (normTop5 transactions)
    let top5 := sorted.take 5
    if "Категория" ∈ transactions.cols ∧ "Описание" ∈ transactions.cols then
      .ok (top5.map toTopTxn)
    else .error .keyError
  else .error .missingColumns

/-- True when the lenient mixed day-first parse succeeds on a cell
(text that parses, an already parsed value, or the missing marker,
which `pd.to_datetime` passes through as NaT without error). -/
def lenientOk (c : TsCell) : Bool :=
  match c with
  | .txt s => (parseMixedDayfirst s).isSome
  | .time _ => true
  | .nan => true

/-- Result of the lenient parse on one cell (meaningful when
`lenientOk` holds). -/
def lenientVal (c : TsCell) : TsCell :=
  match c with
  | .txt s =>
    match parseMixedDayfirst s with
    | some dt => .time dt
    | none => .nan
  | .time v => .time v
  | .nan => .nan

/-- Replaces the operation-timestamp of a row by its lenient parse (the
in-place column assignment of the category report). -/
def normLenient (r : Row) : Row :=
  { r with operation_timestamp := lenientVal r.operation_timestamp }

/-- The optional `date` argument of the category report: either text to
be parsed or an already constructed datetime. -/
inductive SbcDate where
  | str (s : String)
  | dt (v : DT)
deriving DecidableEq, Repr

/-- Embeds `spending_by_category` (src/reports.py:44).  The argument
type checks of the source cannot fail in this typed model.  A textual
date is parsed with `%Y-%m-%d %H:%M:%S` first, then `%Y-%m-%d`; an
omitted date falls back to the injected clock value `today`
(`datetime.today()` in the source).  The timestamp column of the
caller's dataset is then overwritten in place with the lenient parse —
which raises rather than coerces — the rows are filtered to the exact
category and to the inclusive trailing-90-day window, and the pair
(mutated input dataset, result dataset) is returned; the source returns
only the second component and effects the first by mutation. -/
def spending_by_category (transactions : Df) (category : String)
    (date : Option SbcDate) (today : DT) : Except Err (Df × Df) :=
  match (match date with
         | some (.str s) =>
           match parseYmdHms s with
           | some v => Except.ok v
           | none =>
             match parseYmd s with
             | some v => Except.ok v
             | none => Except.error Err.invalidDateFormat
         | some (.dt v) => Except.ok v
         | none => Except.ok today : Except Err DT) with
  | .error e => .error e
  | .ok refDate =>
    if "Дата операции" ∈ transactions.cols then
      if transactions.rows.all fun r => lenientOk r.operation_timestamp then
        let mutated : Df := ⟨transactions.cols, transactions.rows.map normLenient⟩
        if "Категория" ∈ transactions.cols then
          let startS : Int := toSecs refDate - 90 * 86400
          let endS : Int := toSecs refDate
          let byCategory := mutated.rows.filter fun r => r.category == category
          let byDate := byCategory.filter fun r =>
            tsBetween r.operation_timestamp startS endS
          .ok (mutated, ⟨transactions.cols, byDate⟩)
        else .error .keyError
      else .error .parseError
    else .error .keyError

/-- Modelled from the spec: the Transaction Search operation (§4.5) is
not among the source files; only the spec describes it.  A record is a
loosely-typed map whose `description` and `category` fields may be
absent and default to empty text; malformed entries are skipped. -/
inductive SRec where
  | entry (description : Option String) (category : Option String)
  | malformed
deriving DecidableEq, Repr

/-- Modelled from the spec: Python `str.lower()` restricted to the
alphabets occurring in the spec's examples (ASCII and Cyrillic). -/
def pyLower (c : Char) : Char :=
  if 'A' ≤ c ∧ c ≤ 'Z' then Char.ofNat (c.toNat + 32)
  else if 0x410 ≤ c.toNat ∧ c.toNat ≤ 0x42F then Char.ofNat (c.toNat + 32)
  else if c.toNat = 0x401 then Char.ofNat 0x451
  else c

/-- Substring test on character lists (Python `needle in haystack`). -/
def containsSub (needle : List Char) : List Char → Bool
  | [] => needle.isEmpty
  | c :: rest => needle.isPrefixOf (c :: rest) || containsSub needle rest

/-- Modelled from the spec: case-insensitive substring test, lowering
both sides as Python `str.lower()` does. -/
def containsCI (haystack query : String) : Bool :=
  containsSub (query.data.map pyLower) (haystack.data.map pyLower)

/-- Modelled from the spec: a record matches when the query is a
case-insensitive substring of its description or of its category,
absent fields defaulting to empty text; malformed entries never match
and are thereby skipped. -/
def matchesQuery (query : String) (r : SRec) : Bool :=
  match r with
  | .entry d c => containsCI (d.getD "") query || containsCI (c.getD "") query
  | .malformed => false

/-- Modelled from the spec: the Transaction Search returns the matching
records in input order (their JSON serialization is the excluded I/O
boundary and is not modelled). -/
def search_transactions (records : List SRec) (query : String) : List SRec :=
  records.filter (matchesQuery query)

end SkyBank

namespace SkyBank

/-- Claim-side predicate for the as-of window (claim C4): the row's
timestamp parses under the strict day-first format to a value `t` with
`reference - 1 day <= t <= reference`; unparseable timestamps coerce to
NaT and the comparison is then false. -/
def inAsOfWindow (endDT : DT) (r : Row) : Bool :=
  tsBetween (coerceDmyHms r.operation_timestamp)
    (toSecs endDT - 86400) (toSecs endDT)

/-- Claim-side predicate for the category report (claim C5): the
category field equals the requested category exactly and the leniently
parsed timestamp lies in the inclusive trailing-90-day window. -/
def inCategoryWindow (category : String) (refDT : DT) (r : Row) : Bool :=
  r.category == category &&
    tsBetween (lenientVal r.operation_timestamp)
      (toSecs refDT - 90 * 86400) (toSecs refDT)

/-- The descending sort step of the ranker applied to index-annotated
rows, used to state sortedness and stability of the tie-break. -/
def topFiveSorted (transactions : Df) : List (ℕ × Row) :=
  sort_values_desc (fun p : ℕ × Row => p.2.amount_of_payment)
    (normTop5 transactions).enum

/-- Statement of claim C1: the ranker's output is the reshaped first
five of an arrangement of the (index-annotated, parse-normalized) input
rows that is non-increasing in the payment amount and keeps rows of
equal amount in increasing input-index order — a stable descending
sort. -/
def topFiveStable (transactions : Df) : Prop :=
  get_top_5_transactions transactions =
    .ok ((((topFiveSorted transactions).map Prod.snd).take 5).map toTopTxn) ∧
  (topFiveSorted transactions).Perm (normTop5 transactions).enum ∧
  (topFiveSorted transactions).Pairwise (fun p q =>
    q.2.amount_of_payment ≤ p.2.amount_of_payment ∧
    (p.2.amount_of_payment = q.2.amount_of_payment → p.1 < q.1))

/-- Builds one concrete transaction row. -/
def wRow (ts : String) (aop apay : ℚ) (cat descr card : String) : Row :=
  ⟨.txt ts, aop, apay, cat, descr, card⟩

/-- Concrete dataset for the C1 witness: two rows tie at amount 100. -/
def dfW1 : Df :=
  ⟨["Дата операции", "Сумма платежа", "Категория", "Описание"],
   [wRow "26.07.2023 12:00:00" 0 100 "c1" "first" "",
    wRow "27.07.2023 12:00:00" 0 100 "c2" "second" "",
    wRow "28.07.2023 12:00:00" 0 50 "c3" "third" ""]⟩

/-- Concrete dataset shared by the card-aggregator witnesses (the
spec's §8 scenario). -/
def dfCards : Df :=
  ⟨["Номер карты", "Сумма операции"],
   [wRow "" 100 0 "" "" "1234567812345678",
    wRow "" 200 0 "" "" "1234567812345678",
    wRow "" 300 0 "" "" "8765432187654321"]⟩

/-- Concrete dataset refuting first-appearance group order: card "9"
appears before card "1" in the input. -/
def dfC3 : Df :=
  ⟨["Номер карты", "Сумма операции"],
   [wRow "" 3 0 "" "" "9",
    wRow "" 5 0 "" "" "1"]⟩

/-- Concrete dataset for the C4 witness: rows at the window edges, one
second outside on both sides, and one unparseable timestamp. -/
def dfW4 : Df :=
  ⟨["Дата операции", "Сумма операции"],
   [wRow "26.07.2023 12:00:00" 1 0 "" "" "",
    wRow "26.07.2023 11:59:59" 2 0 "" "" "",
    wRow "27.07.2023 12:00:00" 3 0 "" "" "",
    wRow "27.07.2023 12:00:01" 4 0 "" "" "",
    wRow "junk" 5 0 "" "" ""]⟩

/-- Reference timestamp of the C4 witness. -/
def refW4 : DT := ⟨2023, 7, 27, 12, 0, 0⟩

/-- Concrete dataset for the C5/C8 witnesses: rows 90 days before the
reference (kept), 90 days and one second before (dropped), at the
reference (kept), and in another category (dropped). -/
def dfW5 : Df :=
  ⟨["Дата операции", "Сумма операции", "Категория"],
   [wRow "01.04.2023 00:00:00" 100 0 "Продукты" "" "",
    wRow "31.03.2023 23:59:59" 200 0 "Продукты" "" "",
    wRow "30.06.2023 00:00:00" 300 0 "Продукты" "" "",
    wRow "15.05.2023 00:00:00" 400 0 "Одежда" "" ""]⟩

/-- Reference date of the C5/C8 witnesses. -/
def refW5 : DT := ⟨2023, 6, 30, 0, 0, 0⟩

/-- Clock value injected where the source would call
`datetime.today()`; the witnesses always pass an explicit date, so it
is never consulted. -/
def todayW : DT := ⟨2024, 1, 1, 0, 0, 0⟩

/-- Concrete dataset for claim C9: both precondition columns are
present, the category and description columns are not. -/
def dfC9 : Df :=
  ⟨["Дата операции", "Сумма платежа"],
   [wRow "26.07.2023 12:00:00" 0 100 "a" "x" ""]⟩

end SkyBank

deriving instance DecidableEq for Except

namespace SkyBank

/-- Inserting an element whose index exceeds every index in a list that
is already sorted-and-stable keeps the list sorted-and-stable. -/
lemma pairwise_orderedInsert_stable {α : Type} (key : α → ℚ) (idx : α → ℕ)
    (x : α) :
    ∀ ys : List α,
      ys.Pairwise (fun a b => key a ≤ key b ∧ (key b = key a → idx b < idx a)) →
      (∀ y ∈ ys, idx y < idx x) →
      (List.orderedInsert (fun a b => key a ≤ key b) x ys).Pairwise
        (fun a b => key a ≤ key b ∧ (key b = key a → idx b < idx a)) := by
  intro ys
  induction ys with
  | nil => intro _ _; simp [List.orderedInsert]
  | cons y ys ih =>
    intro hp hlt
    rcases List.pairwise_cons.mp hp with ⟨hy, hys⟩
    by_cases h : key x ≤ key y
    · simp only [List.orderedInsert, if_pos h]
      refine List.pairwise_cons.mpr ⟨?_, hp⟩
      intro z hz
      rcases List.mem_cons.mp hz with rfl | hz2
      · exact ⟨h, fun _ => hlt z (List.mem_cons_self z ys)⟩
      · exact ⟨le_trans h (hy z hz2).1,
          fun _ => hlt z (List.mem_cons_of_mem y hz2)⟩
    · have hyx : key y < key x := not_le.mp h
      simp only [List.orderedInsert, if_neg h]
      refine List.pairwise_cons.mpr
        ⟨?_, ih hys fun z hz => hlt z (List.mem_cons_of_mem y hz)⟩
      intro z hz
      have hz2 : z = x ∨ z ∈ ys := by
        have := (List.perm_orderedInsert _ x ys).mem_iff.mp hz
        simpa using this
      rcases hz2 with rfl | hz2
      · exact ⟨le_of_lt hyx, fun he => absurd he (ne_of_gt hyx)⟩
      · exact hy z hz2

/-- Insertion sort of a list whose indices strictly decrease yields a
list sorted by key in which equal keys keep strictly decreasing
indices. -/
lemma pairwise_insertionSort_stable {α : Type} (key : α → ℚ) (idx : α → ℕ) :
    ∀ m : List α, m.Pairwise (fun a b => idx b < idx a) →
      (List.insertionSort (fun a b => key a ≤ key b) m).Pairwise
        (fun a b => key a ≤ key b ∧ (key b = key a → idx b < idx a)) := by
  intro m
  induction m with
  | nil => intro _; simp [List.insertionSort]
  | cons x m ih =>
    intro hm
    rcases List.pairwise_cons.mp hm with ⟨hx, hm2⟩
    simp only [List.insertionSort]
    exact pairwise_orderedInsert_stable key idx x _ (ih hm2)
      fun y hy => hx y ((List.perm_insertionSort _ m).subset hy)

/-- A member of `enumFrom n l` carries an index of at least `n`. -/
lemma le_fst_of_mem_enumFrom {α : Type} :
    ∀ (l : List α) (n : ℕ) (p : ℕ × α), p ∈ l.enumFrom n → n ≤ p.1 := by
  intro l
  induction l with
  | nil => intro n p hp; simp [List.enumFrom] at hp
  | cons x xs ih =>
    intro n p hp
    rcases List.mem_cons.mp hp with rfl | hp2
    · exact le_refl n
    · exact le_trans (Nat.le_succ n) (ih (n + 1) p hp2)

/-- Indices in `enumFrom` strictly increase along the list. -/
lemma pairwise_enumFrom {α : Type} :
    ∀ (l : List α) (n : ℕ),
      (l.enumFrom n).Pairwise (fun a b : ℕ × α => a.1 < b.1) := by
  intro l
  induction l with
  | nil => intro n; simp [List.enumFrom]
  | cons x xs ih =>
    intro n
    refine List.pairwise_cons.mpr ⟨?_, ih (n + 1)⟩
    intro p hp
    exact Nat.lt_of_succ_le (le_fst_of_mem_enumFrom xs (n + 1) p hp)

/-- Indices in `enum` strictly increase along the list. -/
lemma pairwise_enum {α : Type} (l : List α) :
    l.enum.Pairwise (fun a b : ℕ × α => a.1 < b.1) :=
  pairwise_enumFrom l 0

/-- The descending sort is a permutation of its input. -/
lemma sort_values_desc_perm {α : Type} (key : α → ℚ) (l : List α) :
    (sort_values_desc key l).Perm l :=
  ((List.reverse_perm _).trans (List.perm_insertionSort _ _)).trans
    (List.reverse_perm l)

/-- The descending sort of a list with strictly increasing indices is
non-increasing in the key, and rows of equal key keep strictly
increasing indices: the reverse-sort-reverse route of pandas `nargsort`
is a stable descending sort. -/
lemma sort_values_desc_pairwise {α : Type} (key : α → ℚ) (idx : α → ℕ)
    (l : List α) (hl : l.Pairwise fun a b => idx a < idx b) :
    (sort_values_desc key l).Pairwise
      (fun p q => key q ≤ key p ∧ (key p = key q → idx p < idx q)) := by
  unfold sort_values_desc
  rw [List.pairwise_reverse]
  exact pairwise_insertionSort_stable key idx l.reverse
    (List.pairwise_reverse.mpr hl)

/-- Mapping a projection out of an ordered insert commutes when the
comparison only inspects the projected key. -/
lemma map_orderedInsert {α β : Type} (key : α → ℚ) (f : β → α) (x : β) :
    ∀ ys : List β,
      (List.orderedInsert (fun a b => key (f a) ≤ key (f b)) x ys).map f =
        List.orderedInsert (fun a b => key a ≤ key b) (f x) (ys.map f) := by
  intro ys
  induction ys with
  | nil => simp [List.orderedInsert]
  | cons y ys ih =>
    by_cases h : key (f x) ≤ key (f y)
    · simp only [List.orderedInsert, List.map_cons, if_pos h]
    · simp only [List.orderedInsert, List.map_cons, if_neg h]
      rw [ih]

/-- Mapping a projection out of an insertion sort commutes when the
comparison only inspects the projected key. -/
lemma map_insertionSort {α β : Type} (key : α → ℚ) (f : β → α) :
    ∀ m : List β,
      (List.insertionSort (fun a b => key (f a) ≤ key (f b)) m).map f =
        List.insertionSort (fun a b => key a ≤ key b) (m.map f) := by
  intro m
  induction m with
  | nil => simp [List.insertionSort]
  | cons x m ih =>
    simp only [List.insertionSort, List.map_cons]
    rw [map_orderedInsert key f x, ih]

/-- Mapping a projection out of the descending sort commutes when the
key factors through the projection. -/
lemma map_sort_values_desc {α β : Type} (key : α → ℚ) (f : β → α)
    (l : List β) :
    (sort_values_desc (fun p => key (f p)) l).map f =
      sort_values_desc key (l.map f) := by
  unfold sort_values_desc
  rw [List.map_reverse, map_insertionSort key f, List.map_reverse]

end SkyBank

namespace SkyBank

/-- Summing a pointwise sum of two functions over a list splits. -/
lemma sum_map_add {α : Type} (f g : α → ℚ) :
    ∀ l : List α, (l.map fun x => f x + g x).sum = (l.map f).sum + (l.map g).sum := by
  intro l
  induction l with
  | nil => simp
  | cons x l ih => simp [ih]; ring

/-- Over a duplicate-free key list containing `c`, the indicator sum
collapses to the single value. -/
lemma sum_if_single (c : String) (q : ℚ) :
    ∀ keys : List String, keys.Nodup → c ∈ keys →
      (keys.map fun k => if c = k then q else 0).sum = q := by
  intro keys
  induction keys with
  | nil => intro _ h; simp at h
  | cons k keys ih =>
    intro hnd hc
    rcases List.mem_cons.mp hc with rfl | hc2
    · have hnotin : c ∉ keys := (List.nodup_cons.mp hnd).1
      have : (keys.map fun k => if c = k then q else 0).sum = 0 := by
        rw [List.sum_eq_zero]
        intro x hx
        rcases List.mem_map.mp hx with ⟨k2, hk2, rfl⟩
        simp only [ite_eq_right_iff]
        intro he
        exact absurd (he ▸ hk2) hnotin
      simp [this]
    · have hne : c ≠ k := by
        rintro rfl
        exact (List.nodup_cons.mp hnd).1 hc2
      simp only [List.map_cons, List.sum_cons, if_neg hne, zero_add]
      exact ih (List.nodup_cons.mp hnd).2 hc2

/-- Conservation of sum over a grouping: if the key list is
duplicate-free and covers the key of every row, then summing the
per-group sums gives the sum over all rows. -/
lemma sum_groups :
    ∀ (rows : List Row) (keys : List String), keys.Nodup →
      (∀ r ∈ rows, r.card_number ∈ keys) →
      (keys.map fun k =>
        ((rows.filter fun r => r.card_number == k).map
          Row.amount_of_operation).sum).sum
        = (rows.map Row.amount_of_operation).sum := by
  intro rows
  induction rows with
  | nil => intro keys _ _; simp
  | cons r rows ih =>
    intro keys hnd hcov
    have hstep : ∀ k : String,
        (((r :: rows).filter fun x => x.card_number == k).map
          Row.amount_of_operation).sum
        = (if r.card_number = k then r.amount_of_operation else 0)
          + ((rows.filter fun x => x.card_number == k).map
              Row.amount_of_operation).sum := by
      intro k
      by_cases h : r.card_number = k
      · simp [List.filter_cons, h]
      · simp [List.filter_cons, h]
    simp only [hstep]
    rw [sum_map_add, sum_if_single r.card_number r.amount_of_operation keys hnd
        (hcov r (List.mem_cons_self r rows)),
      ih keys hnd fun x hx => hcov x (List.mem_cons_of_mem r hx)]
    simp

/-- Membership in the accumulator-based first-appearance list: exactly
the values of the list not yet seen. -/
lemma mem_firstAppearanceAux :
    ∀ (l seen : List String) (a : String),
      a ∈ firstAppearanceAux seen l ↔ a ∈ l ∧ a ∉ seen := by
  intro l
  induction l with
  | nil => intro seen a; simp [firstAppearanceAux]
  | cons x xs ih =>
    intro seen a
    by_cases hx : x ∈ seen
    · rw [firstAppearanceAux, if_pos hx, ih seen a]
      constructor
      · rintro ⟨h1, h2⟩
        exact ⟨List.mem_cons_of_mem x h1, h2⟩
      · rintro ⟨h1, h2⟩
        rcases List.mem_cons.mp h1 with rfl | h1
        · exact absurd hx h2
        · exact ⟨h1, h2⟩
    · rw [firstAppearanceAux, if_neg hx]
      constructor
      · intro h
        rcases List.mem_cons.mp h with rfl | h2
        · exact ⟨List.mem_cons_self a xs, hx⟩
        · have := (ih (x :: seen) a).mp h2
          exact ⟨List.mem_cons_of_mem x this.1,
            fun hs => this.2 (List.mem_cons_of_mem x hs)⟩
      · rintro ⟨h1, h2⟩
        rcases List.mem_cons.mp h1 with rfl | h3
        · exact List.mem_cons_self a _
        · by_cases he : a = x
          · exact he ▸ List.mem_cons_self x _
          · refine List.mem_cons_of_mem x ((ih (x :: seen) a).mpr ⟨h3, ?_⟩)
            intro hs
            rcases List.mem_cons.mp hs with he2 | hs2
            · exact he he2
            · exact h2 hs2

/-- Membership in the first-appearance list coincides with membership
in the original list. -/
lemma mem_firstAppearance (l : List String) (a : String) :
    a ∈ firstAppearance l ↔ a ∈ l := by
  rw [firstAppearance, mem_firstAppearanceAux]
  simp

/-- The accumulator-based first-appearance list is duplicate-free. -/
lemma nodup_firstAppearanceAux :
    ∀ (l seen : List String), (firstAppearanceAux seen l).Nodup := by
  intro l
  induction l with
  | nil => intro seen; simp [firstAppearanceAux]
  | cons x xs ih =>
    intro seen
    by_cases hx : x ∈ seen
    · rw [firstAppearanceAux, if_pos hx]
      exact ih seen
    · rw [firstAppearanceAux, if_neg hx]
      refine List.nodup_cons.mpr ⟨?_, ih (x :: seen)⟩
      intro hmem
      exact ((mem_firstAppearanceAux xs (x :: seen) x).mp hmem).2
        (List.mem_cons_self x seen)

/-- The first-appearance list is duplicate-free. -/
lemma nodup_firstAppearance (l : List String) : (firstAppearance l).Nodup :=
  nodup_firstAppearanceAux l []

/-- The groupby key list is duplicate-free. -/
lemma nodup_groupbyKeys (df : Df) : (groupbyKeys df).Nodup :=
  ((List.perm_insertionSort _ _).nodup_iff).mpr
    (nodup_firstAppearance (df.rows.map Row.card_number))

/-- Every row's card number occurs among the groupby keys. -/
lemma card_mem_groupbyKeys (df : Df) :
    ∀ r ∈ df.rows, r.card_number ∈ groupbyKeys df := by
  intro r hr
  have : r.card_number ∈ df.rows.map Row.card_number :=
    List.mem_map.mpr ⟨r, hr, rfl⟩
  exact (List.perm_insertionSort _ _).mem_iff.mpr
    ((mem_firstAppearance _ _).mpr this)

end SkyBank

namespace SkyBank

/-- Reduction of the category report on a valid explicit date: the
caller's rows come back with the timestamp column leniently parsed in
place, and the result holds exactly the rows matching the category and
the trailing-90-day window. -/
lemma spending_ok (df : Df) (category : String) (refDT today : DT)
    (h1 : "Дата операции" ∈ df.cols) (h2 : "Категория" ∈ df.cols)
    (hall : (df.rows.all fun r => lenientOk r.operation_timestamp) = true) :
    spending_by_category df category (some (.dt refDT)) today =
      .ok (⟨df.cols, df.rows.map normLenient⟩,
        ⟨df.cols,
          (df.rows.filter (inCategoryWindow category refDT)).map normLenient⟩) := by
  simp only [spending_by_category]
  rw [if_pos h1, if_pos hall, if_pos h2]
  refine congrArg _ (congrArg _ (congrArg _ ?_))
  rw [List.filter_filter, List.filter_map]
  refine congrArg _ (List.filter_congr ?_)
  intro r _
  simp only [Function.comp, normLenient, inCategoryWindow, Bool.and_comm]

/-- C2: for every dataset with the card-number and operation-amount
columns, the total spend summed over all groups of the card aggregator
equals the amount summed over all input rows (conservation of sum). -/
theorem claim_C2 (df : Df)
    (h1 : "Номер карты" ∈ df.cols) (h2 : "Сумма операции" ∈ df.cols)
    (out : List CardInfo) (hout : calculate_card_info df = .ok out) :
    (out.map CardInfo.total_spent).sum
      = (df.rows.map Row.amount_of_operation).sum := by
  unfold calculate_card_info at hout
  rw [if_pos ⟨h1, h2⟩] at hout
  injection hout with h
  rw [← h, List.map_map]
  exact sum_groups df.rows (groupbyKeys df) (nodup_groupbyKeys df)
    (card_mem_groupbyKeys df)

/-- Witness for C2 on the spec's §8 card scenario. -/
theorem claim_C2_witness :
    calculate_card_info dfCards = .ok [⟨"5678", 300, 3⟩, ⟨"4321", 300, 3⟩] ∧
    (([⟨"5678", 300, 3⟩, ⟨"4321", 300, 3⟩] : List CardInfo).map
        CardInfo.total_spent).sum
      = (dfCards.rows.map Row.amount_of_operation).sum :=
  ⟨by with_unfolding_all decide, claim_C2 dfCards (by with_unfolding_all decide) (by with_unfolding_all decide)
    [⟨"5678", 300, 3⟩, ⟨"4321", 300, 3⟩] (by with_unfolding_all decide)⟩

/-- C7: every group record of the card aggregator has cashback equal to
exactly one percent of its total spend. -/
theorem claim_C7 (df : Df)
    (h1 : "Номер карты" ∈ df.cols) (h2 : "Сумма операции" ∈ df.cols)
    (out : List CardInfo) (hout : calculate_card_info df = .ok out)
    (g : CardInfo) (hg : g ∈ out) :
    g.cashback = g.total_spent * (1 / 100) := by
  unfold calculate_card_info at hout
  rw [if_pos ⟨h1, h2⟩] at hout
  injection hout with h
  rw [← h] at hg
  rcases List.mem_map.mp hg with ⟨k, _, rfl⟩
  rfl

/-- Witness for C7 on the spec's §8 card scenario. -/
theorem claim_C7_witness :
    calculate_card_info dfCards = .ok [⟨"5678", 300, 3⟩, ⟨"4321", 300, 3⟩] ∧
    (⟨"5678", 300, 3⟩ : CardInfo) ∈
      ([⟨"5678", 300, 3⟩, ⟨"4321", 300, 3⟩] : List CardInfo) ∧
    (⟨"5678", 300, 3⟩ : CardInfo).cashback
      = (⟨"5678", 300, 3⟩ : CardInfo).total_spent * (1 / 100) :=
  ⟨by with_unfolding_all decide, by with_unfolding_all decide,
    claim_C7 dfCards (by with_unfolding_all decide) (by with_unfolding_all decide)
      [⟨"5678", 300, 3⟩, ⟨"4321", 300, 3⟩] (by with_unfolding_all decide)
      ⟨"5678", 300, 3⟩ (by with_unfolding_all decide)⟩

/-- C3 counterexample: with card "9" first and card "1" second in the
input, the aggregator reports the group of card "1" first — sorted key
order, not first-appearance order. -/
theorem claim_C3_counterexample :
    calculate_card_info dfC3 = .ok [⟨"1", 5, 1 / 20⟩, ⟨"9", 3, 3 / 100⟩] ∧
    dfC3.rows.map Row.card_number = ["9", "1"] := by
  with_unfolding_all decide

/-- C3 as amended: the groups of the card aggregator appear in
ascending lexicographic order of the card number (pandas groupby sorts
its keys), the key list being a duplicate-free rearrangement of the
distinct card numbers of the input. -/
theorem claim_C3_amended (df : Df)
    (h1 : "Номер карты" ∈ df.cols) (h2 : "Сумма операции" ∈ df.cols)
    (out : List CardInfo) (hout : calculate_card_info df = .ok out) :
    out = (groupbyKeys df).map (cardGroup df) ∧
    (groupbyKeys df).Sorted (fun a b : String => a ≤ b) ∧
    (groupbyKeys df).Perm (firstAppearance (df.rows.map Row.card_number)) := by
  refine ⟨?_, ?_, List.perm_insertionSort _ _⟩
  · unfold calculate_card_info at hout
    rw [if_pos ⟨h1, h2⟩] at hout
    injection hout with h
    exact h.symm
  · haveI : IsTotal String fun a b : String => a ≤ b := ⟨fun a b => le_total a b⟩
    haveI : IsTrans String fun a b : String => a ≤ b :=
      ⟨fun a b c hab hbc => le_trans hab hbc⟩
    exact List.sorted_insertionSort _ _

/-- Witness for the amended C3 on the spec's §8 card scenario. -/
theorem claim_C3_witness :
    calculate_card_info dfCards = .ok [⟨"5678", 300, 3⟩, ⟨"4321", 300, 3⟩] ∧
    (([⟨"5678", 300, 3⟩, ⟨"4321", 300, 3⟩] : List CardInfo)
        = (groupbyKeys dfCards).map (cardGroup dfCards) ∧
      (groupbyKeys dfCards).Sorted (fun a b : String => a ≤ b) ∧
      (groupbyKeys dfCards).Perm
        (firstAppearance (dfCards.rows.map Row.card_number))) :=
  ⟨by with_unfolding_all decide, claim_C3_amended dfCards (by with_unfolding_all decide) (by with_unfolding_all decide)
    [⟨"5678", 300, 3⟩, ⟨"4321", 300, 3⟩] (by with_unfolding_all decide)⟩

/-- C9: a dataset holding exactly the two precondition columns of the
top-5 ranker passes the explicit check but fails with the untyped
column-access error in the output-shaping step. -/
theorem claim_C9 :
    ("Дата операции" ∈ dfC9.cols ∧ "Сумма платежа" ∈ dfC9.cols) ∧
    "Категория" ∉ dfC9.cols ∧ "Описание" ∉ dfC9.cols ∧
    get_top_5_transactions dfC9 = .error .keyError := by
  with_unfolding_all decide

end SkyBank

namespace SkyBank

/-- Projecting the second components out of the descending sort of an
index-annotated list gives the descending sort of the plain list. -/
lemma map_snd_sort_enum {α : Type} (key : α → ℚ) (l : List α) :
    (sort_values_desc (fun p : ℕ × α => key p.2) l.enum).map Prod.snd =
      sort_values_desc key l := by
  have h := map_sort_values_desc key (Prod.snd : ℕ × α → α) l.enum
  rw [List.enum_map_snd] at h
  exact h

/-- C1, within the regime where the sort model is exact (at most 16
rows, numpy's insertion-sort cutoff): the top-5 ranker sorts descending
by the payment amount with a stable tie-break — its output arises from
an arrangement of the (index-annotated, parse-normalized) input rows
that is non-increasing in amount and keeps equal amounts in increasing
input order.  Beyond that size the source's default quicksort gives no
stability guarantee, so the claim as stated over every dataset demands
a property the code does not provide. -/
theorem claim_C1 (df : Df) (_hlen : df.rows.length ≤ 16)
    (h1 : "Дата операции" ∈ df.cols) (h2 : "Сумма платежа" ∈ df.cols)
    (h3 : "Категория" ∈ df.cols) (h4 : "Описание" ∈ df.cols) :
    topFiveStable df := by
  refine ⟨?_, sort_values_desc_perm _ _, ?_⟩
  · unfold topFiveSorted
    rw [map_snd_sort_enum]
    unfold get_top_5_transactions
    rw [if_pos ⟨h1, h2⟩, if_pos ⟨h3, h4⟩]
  · exact sort_values_desc_pairwise (fun p : ℕ × Row => p.2.amount_of_payment)
      Prod.fst _ (pairwise_enum _)

/-- Witness for C1 on a dataset of three rows (inside the exact
regime), two of them tying at amount 100. -/
theorem claim_C1_witness :
    dfW1.rows.length ≤ 16 ∧
    ("Дата операции" ∈ dfW1.cols) ∧ ("Сумма платежа" ∈ dfW1.cols) ∧
    ("Категория" ∈ dfW1.cols) ∧ ("Описание" ∈ dfW1.cols) ∧
    topFiveStable dfW1 :=
  ⟨by with_unfolding_all decide, by with_unfolding_all decide,
   by with_unfolding_all decide, by with_unfolding_all decide,
   by with_unfolding_all decide,
   claim_C1 dfW1 (by with_unfolding_all decide) (by with_unfolding_all decide)
     (by with_unfolding_all decide) (by with_unfolding_all decide)
     (by with_unfolding_all decide)⟩

/-- C4: on a reference string of the exact accepted format, the as-of
filter returns exactly the rows whose timestamp parses under the strict
day-first format into the inclusive window of one day ending at the
reference; unparseable timestamps are excluded. -/
theorem claim_C4 (df : Df) (s : String) (endDT : DT)
    (hs : parseYmdHms s = some endDT) (hcol : "Дата операции" ∈ df.cols) :
    filter_transactions_by_date df s =
      .ok ⟨df.cols, (df.rows.filter (inAsOfWindow endDT)).map normStrict⟩ := by
  simp only [filter_transactions_by_date, hs]
  rw [if_pos hcol]
  refine congrArg _ (congrArg _ ?_)
  rw [List.filter_map]
  rfl

/-- Witness for C4 on rows at the window edges, one second outside on
both sides, and one unparseable row. -/
theorem claim_C4_witness :
    parseYmdHms "2023-07-27 12:00:00" = some refW4 ∧
    "Дата операции" ∈ dfW4.cols ∧
    filter_transactions_by_date dfW4 "2023-07-27 12:00:00" =
      .ok ⟨dfW4.cols, (dfW4.rows.filter (inAsOfWindow refW4)).map normStrict⟩ ∧
    (dfW4.rows.filter (inAsOfWindow refW4)).map Row.amount_of_operation = [1, 3] :=
  ⟨by with_unfolding_all decide, by with_unfolding_all decide,
   claim_C4 dfW4 "2023-07-27 12:00:00" refW4 (by with_unfolding_all decide)
     (by with_unfolding_all decide),
   by with_unfolding_all decide⟩

/-- C5: on a valid explicit reference date and a dataset whose
timestamps all parse leniently, the category report returns exactly the
rows whose category equals the requested one by exact string equality
and whose parsed timestamp lies in the inclusive trailing-90-day
window; an empty dataset or an unmatched category gives an empty
result, not an error. -/
theorem claim_C5 (df : Df) (category : String) (refDT today : DT)
    (h1 : "Дата операции" ∈ df.cols) (h2 : "Категория" ∈ df.cols)
    (hall : (df.rows.all fun r => lenientOk r.operation_timestamp) = true) :
    spending_by_category df category (some (.dt refDT)) today =
      .ok (⟨df.cols, df.rows.map normLenient⟩,
        ⟨df.cols,
          (df.rows.filter (inCategoryWindow category refDT)).map normLenient⟩) :=
  spending_ok df category refDT today h1 h2 hall

/-- Witness for C5 on rows 90 days before the reference (kept), 90 days
and one second before (dropped), at the reference (kept) and in another
category (dropped). -/
theorem claim_C5_witness :
    "Дата операции" ∈ dfW5.cols ∧ "Категория" ∈ dfW5.cols ∧
    (dfW5.rows.all fun r => lenientOk r.operation_timestamp) = true ∧
    spending_by_category dfW5 "Продукты" (some (.dt refW5)) todayW =
      .ok (⟨dfW5.cols, dfW5.rows.map normLenient⟩,
        ⟨dfW5.cols,
          (dfW5.rows.filter (inCategoryWindow "Продукты" refW5)).map
            normLenient⟩) ∧
    (dfW5.rows.filter (inCategoryWindow "Продукты" refW5)).map
        Row.amount_of_operation = [100, 300] :=
  ⟨by with_unfolding_all decide, by with_unfolding_all decide,
   by with_unfolding_all decide,
   claim_C5 dfW5 "Продукты" refW5 todayW (by with_unfolding_all decide)
     (by with_unfolding_all decide) (by with_unfolding_all decide),
   by with_unfolding_all decide⟩

end SkyBank

namespace SkyBank

/-- C6: given a textual date, the category report fails with the
invalid-date-format error exactly when the text matches neither
accepted layout — date plus time is tried first, bare date second, and
any later failure of the report surfaces as a different error. -/
theorem claim_C6 (df : Df) (category s : String) (today : DT) :
    spending_by_category df category (some (.str s)) today =
        .error .invalidDateFormat
      ↔ parseYmdHms s = none ∧ parseYmd s = none := by
  by_cases hc1 : "Дата операции" ∈ df.cols <;>
    by_cases hc2 : (df.rows.all fun r => lenientOk r.operation_timestamp) = true <;>
      by_cases hc3 : "Категория" ∈ df.cols <;>
        cases h1 : parseYmdHms s <;> cases h2 : parseYmd s <;>
          simp [spending_by_category, h1, h2, hc1, hc2, hc3]

/-- C8: on a valid explicit reference date and fully parseable
timestamps, the category report hands back the caller's dataset with
the timestamp column overwritten in place by the lenient parses, every
other column staying unchanged. -/
theorem claim_C8 (df : Df) (category : String) (refDT today : DT)
    (h1 : "Дата операции" ∈ df.cols) (h2 : "Категория" ∈ df.cols)
    (hall : (df.rows.all fun r => lenientOk r.operation_timestamp) = true) :
    (∃ res, spending_by_category df category (some (.dt refDT)) today =
      .ok (⟨df.cols, df.rows.map normLenient⟩, res)) ∧
    (df.rows.map normLenient).map Row.operation_timestamp
      = df.rows.map (fun r => lenientVal r.operation_timestamp) ∧
    (df.rows.map normLenient).map Row.amount_of_operation
      = df.rows.map Row.amount_of_operation ∧
    (df.rows.map normLenient).map Row.amount_of_payment
      = df.rows.map Row.amount_of_payment ∧
    (df.rows.map normLenient).map Row.category = df.rows.map Row.category ∧
    (df.rows.map normLenient).map Row.description = df.rows.map Row.description ∧
    (df.rows.map normLenient).map Row.card_number
      = df.rows.map Row.card_number := by
  refine ⟨⟨_, spending_ok df category refDT today h1 h2 hall⟩,
    ?_, ?_, ?_, ?_, ?_, ?_⟩ <;>
  · rw [List.map_map]
    rfl

/-- Witness for C8 on the trailing-90-day dataset. -/
theorem claim_C8_witness :
    ("Дата операции" ∈ dfW5.cols) ∧ ("Категория" ∈ dfW5.cols) ∧
    (dfW5.rows.all fun r => lenientOk r.operation_timestamp) = true ∧
    ((∃ res, spending_by_category dfW5 "Одежда" (some (.dt refW5)) todayW =
      .ok (⟨dfW5.cols, dfW5.rows.map normLenient⟩, res)) ∧
    (dfW5.rows.map normLenient).map Row.operation_timestamp
      = dfW5.rows.map (fun r => lenientVal r.operation_timestamp) ∧
    (dfW5.rows.map normLenient).map Row.amount_of_operation
      = dfW5.rows.map Row.amount_of_operation ∧
    (dfW5.rows.map normLenient).map Row.amount_of_payment
      = dfW5.rows.map Row.amount_of_payment ∧
    (dfW5.rows.map normLenient).map Row.category = dfW5.rows.map Row.category ∧
    (dfW5.rows.map normLenient).map Row.description
      = dfW5.rows.map Row.description ∧
    (dfW5.rows.map normLenient).map Row.card_number
      = dfW5.rows.map Row.card_number) :=
  ⟨by with_unfolding_all decide, by with_unfolding_all decide,
   by with_unfolding_all decide,
   claim_C8 dfW5 "Одежда" refW5 todayW (by with_unfolding_all decide)
     (by with_unfolding_all decide) (by with_unfolding_all decide)⟩

/-- C10: the Transaction Search returns exactly the records for which
the query is a case-insensitive substring of the description or the
category, in input order; in particular the query "КИНО" matches a
record described "Билеты в кино". -/
theorem claim_C10 (records : List SRec) (query : String) :
    search_transactions records query = records.filter (matchesQuery query) ∧
    (∀ r : SRec, r ∈ search_transactions records query ↔
      r ∈ records ∧ matchesQuery query r = true) ∧
    matchesQuery "КИНО" (.entry (some "Билеты в кино") none) = true := by
  refine ⟨rfl, ?_, by with_unfolding_all decide⟩
  intro r
  simp [search_transactions, List.mem_filter]

end SkyBank
